import Mathlib

/-!
# Verification of the simulated-terminal playback subsystem

Shallow embedding of the Docker-teaching single-page app (TypeScript/React).
The embedded pieces are:

* the scripted playback engine, reimplemented in the source in four places
  (the general `Terminal` component, `DockerVolumes`, the two `DockerNetworks`
  variants, and `DockerLogs`);
* the category/search filters of `EnhancedImageGallery` and `DockerLogs`;
* the clipboard-copy + toast side effects;
* the `ImageModal` call site of `EnhancedImageGallery`.

React `useState` state is modelled as explicit record states; each `setState`
call of the source becomes one state-transformation step, and each `setTimeout`
suspension is one step of the playback step relation.  JavaScript runtime
errors (`TypeError` on member access of `undefined`) are modelled by `Option`,
with `none` standing for the thrown exception.
-/

namespace Docker

/-- One entry of `commandHistory` (`{command: string, output: string[]}` in
`Terminal`, `DockerVolumes` and the second `DockerNetworks` variant). -/
structure HistoryEntry where
  command : String
  output : List String
deriving Repr, DecidableEq

/-- A command record of the `Terminal` props
(`{command: string; output: string[]; description: string}`). -/
structure CommandRecord where
  command : String
  output : List String
  description : String
deriving Repr, DecidableEq

namespace Engine

/-- The component state relevant to playback, shared verbatim by `Terminal`
(src/unnamed/part_001), `DockerVolumes` and the second `DockerNetworks`
variant: the `isExecuting` busy flag and the `commandHistory` list. -/
structure State where
  isExecuting : Bool
  commandHistory : List HistoryEntry
deriving Repr, DecidableEq

/-- The `setCommandHistory` updater run once per revealed line:

`const updated = [...prev]; updated[updated.length - 1].output = [...newOutput]; return updated;`

When `prev` is empty, `updated[updated.length - 1]` is `undefined` and the
assignment throws a `TypeError`; this is the `none` case. -/
def setLastOutputUpd (newOutput : List String) : List HistoryEntry → Option (List HistoryEntry)
  | [] => none
  | [e] => some [{ e with output := newOutput }]
  | e :: f :: rest => (setLastOutputUpd newOutput (f :: rest)).map (fun l => e :: l)

/-- Total counterpart of `setLastOutputUpd`, agreeing with it on non-empty
histories (`setLastOutputUpd_eq_some`). -/
def setLastOutput (newOutput : List String) : List HistoryEntry → List HistoryEntry
  | [] => []
  | [e] => [{ e with output := newOutput }]
  | e :: f :: rest => e :: setLastOutput newOutput (f :: rest)

/-- The synchronous part of an accepted `executeCommand` call, up to the first
`await`: `setIsExecuting(true)` and
`setCommandHistory(prev => [...prev, { command: command.command, output: [] }])`. -/
def startPlayback (cmd : CommandRecord) (s : State) : State :=
  { isExecuting := true
    commandHistory := s.commandHistory ++ [{ command := cmd.command, output := [] }] }

/-- Reveal iteration `k` (1-based) of the `for` loop: after
`newOutput.push(command.output[i])` the local `newOutput` equals
`command.output.take k`, and the updater writes it to the last history
entry. -/
def revealStep (cmd : CommandRecord) (k : Nat) (s : State) : State :=
  { s with commandHistory := setLastOutput (cmd.output.take k) s.commandHistory }

/-- State after the first `k` reveal iterations, run sequentially from `s`. -/
def stateAfterReveals (cmd : CommandRecord) (s : State) : Nat → State
  | 0 => s
  | k + 1 => revealStep cmd (k + 1) (stateAfterReveals cmd s k)

/-- `executeCommand`, run to completion without interference: the busy guard
(`if (isExecuting) return;`), the synchronous start, all
`command.output.length` reveal iterations, then `setIsExecuting(false)`. -/
def executeCommand (cmd : CommandRecord) (s : State) : State :=
  if s.isExecuting then s
  else
    { stateAfterReveals cmd (startPlayback cmd s) cmd.output.length with
        isExecuting := false }

/-- `clearTerminal` of `DockerVolumes` / second `DockerNetworks` variant:
`setCommandHistory([])`.  Note that it does not touch `isExecuting`. -/
def clearTerminal (s : State) : State :=
  { s with commandHistory := [] }

/-- The sequence of states of one accepted playback: the state right after the
synchronous start (index 0, zero lines revealed) and the state after each of
the `N` reveal steps. -/
def playbackTrace (cmd : CommandRecord) (s : State) : List State :=
  (List.range (cmd.output.length + 1)).map (stateAfterReveals cmd (startPlayback cmd s))

/-- Number of revealed output lines of the newest history entry after `k`
reveal steps. -/
def revealedCount (cmd : CommandRecord) (s : State) (k : Nat) : Nat :=
  (((stateAfterReveals cmd (startPlayback cmd s) k).commandHistory.getLast?).map
    (fun e => e.output.length)).getD 0

/-- Timed trace of one accepted playback: the synchronous start happens at
t = 0; reveal step `k` fires at t = 500 + 300·k (the 500 ms "typing" delay
plus `k` per-line 300 ms delays); `setIsExecuting(false)` runs right after the
last reveal. -/
def playbackTimedTrace (cmd : CommandRecord) (s : State) : List (Nat × State) :=
  ((List.range (cmd.output.length + 1)).map
    (fun k => (if k = 0 then 0 else 500 + 300 * k,
               stateAfterReveals cmd (startPlayback cmd s) k)))
  ++ [(500 + 300 * cmd.output.length,
       { stateAfterReveals cmd (startPlayback cmd s) cmd.output.length with
           isExecuting := false })]

end Engine

/-- `NetworkCommand` of DockerNetworks.tsx; the `category` string-literal
union type is modelled as `String`. -/
structure NetworkCommand where
  command : String
  description : String
  output : List String
  category : String
deriving Repr, DecidableEq

/-- `VolumeCommand` of DockerVolumes.tsx; the `category` string-literal union
type is modelled as `String`. -/
structure VolumeCommand where
  command : String
  description : String
  output : List String
  category : String
deriving Repr, DecidableEq

/-! First `DockerNetworks` variant (DockerNetworks.tsx lines 124-406): its
`executeCommand` has no busy guard and keeps no history; it shows one output
list (`selectedOutput`) and marks the in-flight command in `runningCommand`. -/
namespace NetworksA

/-- `useState` state of the first `DockerNetworks` variant. -/
structure State where
  selectedCategory : String
  runningCommand : Option String
  selectedOutput : List String
deriving Repr, DecidableEq

/-- Synchronous prefix of `executeCommand`, up to the first `await`:
`setRunningCommand(cmd.command); setSelectedOutput([]);`.  There is no
`if (busy) return` in front of it. -/
def executeStart (cmd : NetworkCommand) (s : State) : State :=
  { s with runningCommand := some cmd.command, selectedOutput := [] }

/-- One iteration of the output loop:
`setSelectedOutput(prev => [...prev, cmd.output[i]])`. -/
def revealLine (cmd : NetworkCommand) (i : Nat) (s : State) : State :=
  { s with selectedOutput := s.selectedOutput ++ [cmd.output.getD i ""] }

/-- The trailing `setRunningCommand(null)`. -/
def finish (s : State) : State :=
  { s with runningCommand := none }

end NetworksA

/-! Second `DockerNetworks` variant (DockerNetworks.tsx lines 567-873): the
guarded history-based playback engine. -/
namespace NetworksB

/-- `useState` state of the second `DockerNetworks` variant. -/
structure State where
  selectedCategory : String
  isExecuting : Bool
  commandHistory : List HistoryEntry
deriving Repr, DecidableEq

/-- Projection onto the playback-relevant sub-state. -/
def proj (s : State) : Engine.State :=
  { isExecuting := s.isExecuting, commandHistory := s.commandHistory }

/-- State after the first `k` reveal iterations of the loop in
`executeCommand`. -/
def stateAfterReveals (cmd : NetworkCommand) (s : State) : Nat → State
  | 0 => s
  | k + 1 =>
      { stateAfterReveals cmd s k with
          commandHistory := Engine.setLastOutput (cmd.output.take (k + 1))
            (stateAfterReveals cmd s k).commandHistory }

/-- `executeCommand` run to completion without interference: busy guard,
`setIsExecuting(true)`, history append, the reveal loop, then
`setIsExecuting(false)`. -/
def executeCommand (cmd : NetworkCommand) (s : State) : State :=
  if s.isExecuting then s
  else
    { stateAfterReveals cmd
        { s with isExecuting := true,
                 commandHistory := s.commandHistory ++ [{ command := cmd.command, output := [] }] }
        cmd.output.length
      with isExecuting := false }

/-- `clearTerminal`: `setCommandHistory([])`. -/
def clearTerminal (s : State) : State :=
  { s with commandHistory := [] }

/-- Forget the `category` field, which playback never reads. -/
def toRecord (cmd : NetworkCommand) : CommandRecord :=
  { command := cmd.command, output := cmd.output, description := cmd.description }

end NetworksB

/-! `DockerVolumes` component (DockerVolumes.tsx): the guarded history-based
playback engine, line for line the same as the second `DockerNetworks`
variant. -/
namespace Volumes

/-- `useState` state of `DockerVolumes`. -/
structure State where
  selectedCategory : String
  isExecuting : Bool
  commandHistory : List HistoryEntry
deriving Repr, DecidableEq

/-- Projection onto the playback-relevant sub-state. -/
def proj (s : State) : Engine.State :=
  { isExecuting := s.isExecuting, commandHistory := s.commandHistory }

/-- State after the first `k` reveal iterations of the loop in
`executeCommand`. -/
def stateAfterReveals (cmd : VolumeCommand) (s : State) : Nat → State
  | 0 => s
  | k + 1 =>
      { stateAfterReveals cmd s k with
          commandHistory := Engine.setLastOutput (cmd.output.take (k + 1))
            (stateAfterReveals cmd s k).commandHistory }

/-- `executeCommand` run to completion without interference. -/
def executeCommand (cmd : VolumeCommand) (s : State) : State :=
  if s.isExecuting then s
  else
    { stateAfterReveals cmd
        { s with isExecuting := true,
                 commandHistory := s.commandHistory ++ [{ command := cmd.command, output := [] }] }
        cmd.output.length
      with isExecuting := false }

/-- `clearTerminal`: `setCommandHistory([])`. -/
def clearTerminal (s : State) : State :=
  { s with commandHistory := [] }

/-- Forget the `category` field, which playback never reads. -/
def toRecord (cmd : VolumeCommand) : CommandRecord :=
  { command := cmd.command, output := cmd.output, description := cmd.description }

end Volumes

/-! General `Terminal` component (src/unnamed/part_001). -/
namespace Terminal

/-- `useState` state of `Terminal`: `selectedCommand`, `isExecuting`,
`outputLines` (written only by `clearTerminal`) and `commandHistory`. -/
structure State where
  selectedCommand : Nat
  isExecuting : Bool
  outputLines : List String
  commandHistory : List HistoryEntry
deriving Repr, DecidableEq

/-- Projection onto the playback-relevant sub-state. -/
def proj (s : State) : Engine.State :=
  { isExecuting := s.isExecuting, commandHistory := s.commandHistory }

/-- State after the first `k` reveal iterations of the loop in
`executeCommand`. -/
def stateAfterReveals (cmd : CommandRecord) (s : State) : Nat → State
  | 0 => s
  | k + 1 =>
      { stateAfterReveals cmd s k with
          commandHistory := Engine.setLastOutput (cmd.output.take (k + 1))
            (stateAfterReveals cmd s k).commandHistory }

/-- `executeCommand(commandIndex)` run to completion without interference.
It receives an index into the `commands` prop; an out-of-range index makes
`commands[commandIndex]` `undefined`, and reading `command.command` throws —
the `none` case. -/
def executeCommand (commands : List CommandRecord) (idx : Nat) (s : State) : Option State :=
  if s.isExecuting then some s
  else
    match commands.get? idx with
    | none => none
    | some cmd =>
        some { stateAfterReveals cmd
                 { s with isExecuting := true, selectedCommand := idx,
                          commandHistory := s.commandHistory ++ [{ command := cmd.command, output := [] }] }
                 cmd.output.length
               with isExecuting := false }

/-- `clearTerminal`: `setCommandHistory([]); setOutputLines([]);`.  It does
not touch `isExecuting`. -/
def clearTerminal (s : State) : State :=
  { s with commandHistory := [], outputLines := [] }

end Terminal

/-! `DockerLogs` component (src/unnamed/part_002). -/
namespace Logs

/-- `LogEntry`; the `level` string-literal union type is modelled as
`String`. -/
structure LogEntry where
  timestamp : String
  level : String
  message : String
  container : String
deriving Repr, DecidableEq

/-- `LogCommand`. -/
structure LogCommand where
  command : String
  description : String
  output : List LogEntry
  category : String
deriving Repr, DecidableEq

/-- `useState` state of `DockerLogs`. -/
structure State where
  selectedCommand : LogCommand
  isFollowing : Bool
  selectedCategory : String
deriving Repr, DecidableEq

/-- `executeCommand` of `DockerLogs`:
`setSelectedCommand(cmd); setIsFollowing(cmd.category === 'follow');` plus a
toast.  It is fully synchronous: no history append, no incremental reveal, no
delays, no busy guard. -/
def executeCommand (cmd : LogCommand) (s : State) : State :=
  { s with selectedCommand := cmd, isFollowing := cmd.category == "follow" }

/-- The log list handed to `LogViewer` (`logs={selectedCommand.output}`): the
full output of the selected record, visible at once. -/
def displayedLogs (s : State) : List LogEntry :=
  s.selectedCommand.output

/-- `filteredCommands` of `DockerLogs`:
`selectedCategory === 'all' ? logCommands : logCommands.filter(cmd => cmd.category === selectedCategory)`. -/
def filteredCommands (logCommands : List LogCommand) (selectedCategory : String) : List LogCommand :=
  if selectedCategory == "all" then logCommands
  else logCommands.filter (fun cmd => cmd.category == selectedCategory)

end Logs

namespace NetworksA

/-- `networkCommands[0]` of DockerNetworks.tsx. -/
def netLs : NetworkCommand :=
  { command := "docker network ls"
    description := "List all Docker networks on the system"
    output := ["NETWORK ID     NAME      DRIVER    SCOPE",
               "2f259bab93aa   bridge    bridge    local",
               "17e324f45978   host      host      local",
               "098520f7a9d6   none      null      local",
               "1a5d4c8e9b32   my-app    bridge    local"]
    category := "list" }

/-- `networkCommands[1]` of DockerNetworks.tsx. -/
def netCreate : NetworkCommand :=
  { command := "docker network create my-network"
    description := "Create a custom bridge network for container communication"
    output := ["1a5d4c8e9b32f7a8c6d2e4f9b7a3c5d8e9f2a1b4c7d8e5f2a9b6c3d7e8f1a2b5c4d6e9f3a7"]
    category := "create" }

/-- State of the first `DockerNetworks` variant after accepting `netLs` and
revealing its first line; its playback is still in flight
(`runningCommand = some "docker network ls"`). -/
def cexMidPlayback : State :=
  revealLine netLs 0 (executeStart netLs
    { selectedCategory := "all", runningCommand := none, selectedOutput := [] })

/-- Continuation of `cexMidPlayback`: `netCreate` is requested while `netLs`
is still in flight (nothing stops it), then the remaining timer of `netLs`
fires, then the timer of `netCreate` fires. -/
def cexInterleaved : State :=
  revealLine netCreate 0 (revealLine netLs 1 (executeStart netCreate cexMidPlayback))

end NetworksA

namespace Logs

/-- A log record with two entries (the first two rows of
`docker logs nginx-container` in src/unnamed/part_002). -/
def cexLogCmd : LogCommand :=
  { command := "docker logs nginx-container"
    description := "View all logs from a specific container"
    output :=
      [{ timestamp := "2024-01-15T10:30:15.123Z", level := "info",
         message := "nginx/1.21.6", container := "nginx-container" },
       { timestamp := "2024-01-15T10:30:15.124Z", level := "info",
         message := "OS: Linux 5.15.0-56-generic", container := "nginx-container" }]
    category := "basic" }

/-- A second log record. -/
def cexLogCmd2 : LogCommand :=
  { command := "docker logs --tail 50 web-app"
    description := "Show only the last 50 log entries"
    output :=
      [{ timestamp := "2024-01-15T10:28:45.123Z", level := "info",
         message := "Server starting on port 3000", container := "web-app" }]
    category := "filter" }

end Logs

/-- Model of JS `String.prototype.toLowerCase` (per-character ASCII
lowercasing; all category names, image names and search terms in the source
are ASCII). -/
def toLowerCase (s : String) : String :=
  ⟨s.data.map Char.toLower⟩

/-- Is `needle` a prefix of `hay`? -/
def isPre : List Char → List Char → Bool
  | [], _ => true
  | _ :: _, [] => false
  | a :: as, b :: bs => a == b && isPre as bs

/-- Does `hay` contain `needle` as a contiguous substring? -/
def containsSub : List Char → List Char → Bool
  | [], needle => needle.isEmpty
  | h :: t, needle => isPre needle (h :: t) || containsSub t needle

/-- Model of JS `String.prototype.includes`. -/
def includesStr (hay needle : String) : Bool :=
  containsSub hay.data needle.data

/-- `DockerImage` of EnhancedImageGallery.tsx. -/
structure DockerImage where
  name : String
  description : String
  category : String
  pulls : String
  icon : String
  official : Bool
  tags : List String
  size : String
  ports : List String
  volumes : List String
  envVars : List String
  runExample : String
  psOutput : List String
deriving Repr, DecidableEq

namespace Gallery

/-- `matchesCategory` inside `filteredImages`:
`selectedCategory === 'All' || image.category === selectedCategory`. -/
def matchesCategory (selectedCategory : String) (image : DockerImage) : Bool :=
  selectedCategory == "All" || image.category == selectedCategory

/-- `matchesSearch` inside `filteredImages`:
`image.name.toLowerCase().includes(searchTerm.toLowerCase()) || image.description.toLowerCase().includes(searchTerm.toLowerCase())`. -/
def matchesSearch (searchTerm : String) (image : DockerImage) : Bool :=
  includesStr (toLowerCase image.name) (toLowerCase searchTerm)
    || includesStr (toLowerCase image.description) (toLowerCase searchTerm)

/-- `filteredImages` of `EnhancedImageGallery`:
`dockerImages.filter(image => matchesCategory && matchesSearch)`. -/
def filteredImages (dockerImages : List DockerImage) (selectedCategory searchTerm : String) :
    List DockerImage :=
  dockerImages.filter
    (fun image => matchesCategory selectedCategory image && matchesSearch searchTerm image)

/-- `dockerImages[1]` of EnhancedImageGallery.tsx. -/
def postgresImage : DockerImage :=
  { name := "postgres"
    description := "Advanced open source relational database"
    category := "Databases"
    pulls := "1B+"
    icon := "🐘"
    official := true
    tags := ["15", "14", "13", "alpine"]
    size := "371MB"
    ports := ["5432"]
    volumes := ["/var/lib/postgresql/data"]
    envVars := ["POSTGRES_DB", "POSTGRES_USER", "POSTGRES_PASSWORD"]
    runExample := "docker run -d -p 5432:5432 -e POSTGRES_PASSWORD=password --name my-postgres postgres"
    psOutput := ["CONTAINER ID   IMAGE      COMMAND                  CREATED        STATUS        PORTS                   NAMES",
                 "3a1e9b2c4d6f   postgres   \"docker-entrypoint.s…\"   5 minutes ago  Up 5 minutes  0.0.0.0:5432->5432/tcp my-postgres"] }

/-- `dockerImages[3]` of EnhancedImageGallery.tsx. -/
def redisImage : DockerImage :=
  { name := "redis"
    description := "In-memory data structure store and cache"
    category := "Databases"
    pulls := "1B+"
    icon := "🔴"
    official := true
    tags := ["7", "6", "alpine", "latest"]
    size := "117MB"
    ports := ["6379"]
    volumes := ["/data"]
    envVars := ["REDIS_PASSWORD"]
    runExample := "docker run -d -p 6379:6379 --name my-redis redis"
    psOutput := ["CONTAINER ID   IMAGE     COMMAND                  CREATED        STATUS        PORTS                   NAMES",
                 "5c4d3e2f1a0b   redis     \"docker-entrypoint.s…\"   3 minutes ago  Up 3 minutes  0.0.0.0:6379->6379/tcp my-redis"] }

end Gallery

/-- The kind of a `sonner` toast notification. -/
inductive ToastKind where
  | success
  | error
deriving Repr, DecidableEq

/-- An observable side effect of a copy handler: the clipboard write it
initiates, or a toast it shows. -/
inductive Effect where
  | clipboardWrite (text : String)
  | toast (kind : ToastKind) (message : String)
deriving Repr, DecidableEq

/-- `copyCommand` as it appears, identically, in `Terminal`, `DockerVolumes`,
both `DockerNetworks` variants, `DockerLogs` and `DockerInspect`:
`navigator.clipboard.writeText(command); toast.success('Command copied to clipboard!');`.
`_writeOk` is the outcome of the platform clipboard primitive, which the
handler never awaits or inspects. -/
def copyCommand (command : String) (_writeOk : Bool) : List Effect :=
  [.clipboardWrite command, .toast .success "Command copied to clipboard!"]

/-- `copyJson` of `DockerInspect`:
`navigator.clipboard.writeText(JSON.stringify(data, null, 2)); toast.success('JSON data copied to clipboard!');`.
`jsonText` stands for the `JSON.stringify` serialization of the static
inspect object. -/
def copyJson (jsonText : String) (_writeOk : Bool) : List Effect :=
  [.clipboardWrite jsonText, .toast .success "JSON data copied to clipboard!"]

/-- `copyToClipboard` of the `ImageModal` in `EnhancedImageGallery`. -/
def copyToClipboard (text : String) (_writeOk : Bool) : List Effect :=
  [.clipboardWrite text, .toast .success "Copied to clipboard!"]

/-- A user operation on the terminal component: playback of
`commands[idx]` run to completion, clearing, or copying
`commands[idx].command` (a pure side effect with no state change). -/
inductive Op where
  | exec (idx : Nat)
  | clear
  | copy (idx : Nat)
deriving Repr, DecidableEq

/-- The terminal together with its static catalog (the `commands` prop /
module-level catalog constant). -/
structure World where
  commands : List CommandRecord
  state : Engine.State
deriving Repr, DecidableEq

/-- Apply one user operation; `none` models the `TypeError` thrown on an
out-of-range index. -/
def applyOp (w : World) : Op → Option World
  | .exec idx =>
      (w.commands.get? idx).map (fun cmd => { w with state := Engine.executeCommand cmd w.state })
  | .clear => some { w with state := Engine.clearTerminal w.state }
  | .copy idx =>
      (w.commands.get? idx).map (fun _ => w)

/-- Apply a sequence of user operations from left to right. -/
def applyOps (w : World) : List Op → Option World
  | [] => some w
  | op :: ops => (applyOp w op).bind (fun w2 => applyOps w2 ops)

namespace Gallery

/-- The fields of `image` read inside `ImageModal`; every read happens inside
the `{isOpen && (...)}` branch of its JSX.  `none` models the `TypeError` of
reading a field of `null` (the call site passes `selectedImage!`); a closed
modal renders nothing and never reads `image` (`some []`). -/
def renderImageModal (image : Option DockerImage) (isOpen : Bool) : Option (List String) :=
  if isOpen then
    match image with
    | some img => some [img.icon, img.name, img.description, img.category, img.runExample]
    | none => none
  else some []

/-- The call site in `EnhancedImageGallery`:
`<ImageModal image={selectedImage!} isOpen={!!selectedImage} ...>`. -/
def imageModalCallSite (selectedImage : Option DockerImage) : Option (List String) :=
  renderImageModal selectedImage selectedImage.isSome

end Gallery

/-!
## Theorems
-/

namespace Engine

theorem setLastOutput_concat (out : List String) (l : List HistoryEntry) (e : HistoryEntry) :
    setLastOutput out (l ++ [e]) = l ++ [{ e with output := out }] := by
  induction l with
  | nil => rfl
  | cons a t ih =>
      cases t with
      | nil => rfl
      | cons b t2 =>
          simp only [List.cons_append, setLastOutput] at ih ⊢
          exact congrArg (a :: ·) ih

theorem setLastOutputUpd_eq_some (out : List String) (l : List HistoryEntry)
    (h : l ≠ []) : setLastOutputUpd out l = some (setLastOutput out l) := by
  induction l with
  | nil => exact absurd rfl h
  | cons a t ih =>
      cases t with
      | nil => rfl
      | cons b t2 =>
          simp only [setLastOutputUpd, setLastOutput]
          rw [ih (by simp)]
          rfl

theorem stateAfterReveals_history (cmd : CommandRecord) (s : State) :
    ∀ k : Nat,
      (stateAfterReveals cmd (startPlayback cmd s) k).commandHistory
        = s.commandHistory ++ [{ command := cmd.command, output := cmd.output.take k }] := by
  intro k
  induction k with
  | zero => rfl
  | succ k ih =>
      simp only [stateAfterReveals, revealStep, ih, setLastOutput_concat]

theorem stateAfterReveals_isExecuting (cmd : CommandRecord) (s : State) :
    ∀ k : Nat, (stateAfterReveals cmd (startPlayback cmd s) k).isExecuting = true := by
  intro k
  induction k with
  | zero => rfl
  | succ k ih => simpa only [stateAfterReveals, revealStep] using ih

theorem revealedCount_eq (cmd : CommandRecord) (s : State) (k : Nat) :
    revealedCount cmd s k = (cmd.output.take k).length := by
  simp only [revealedCount, stateAfterReveals_history, List.getLast?_concat,
    Option.map_some', Option.getD_some]

/-- C1: for every command record with `N` output lines, an accepted playback
performs exactly `N` sequential appends to the newest history entry; after `k`
appends that entry's revealed output is the first `k` output lines in order
(nothing skipped, duplicated or reordered); the revealed-output length is
non-decreasing along the playback; and on completion the newest entry holds
the full output. -/
theorem playback_appends_exact (cmd : CommandRecord) (s : State)
    (hbusy : s.isExecuting = false) :
    (playbackTrace cmd s).length = cmd.output.length + 1
    ∧ (∀ k, k ≤ cmd.output.length →
        (stateAfterReveals cmd (startPlayback cmd s) k).commandHistory
          = s.commandHistory ++ [{ command := cmd.command, output := cmd.output.take k }])
    ∧ (∀ k, revealedCount cmd s k ≤ revealedCount cmd s (k + 1))
    ∧ (executeCommand cmd s).commandHistory
        = s.commandHistory ++ [{ command := cmd.command, output := cmd.output }] := by
  refine ⟨by simp [playbackTrace], fun k _ => stateAfterReveals_history cmd s k, ?_, ?_⟩
  · intro k
    simp only [revealedCount_eq, List.length_take]
    exact min_le_min (Nat.le_succ k) le_rfl
  · simp only [executeCommand, hbusy, Bool.false_eq_true, if_false,
      stateAfterReveals_history, List.take_length]

/-- Witness for `playback_appends_exact` on the record
`⟨"docker ps", ["a", "b"], ""⟩` run from the idle empty state. -/
theorem playback_appends_exact_witness :
    (playbackTrace { command := "docker ps", output := ["a", "b"], description := "" }
        { isExecuting := false, commandHistory := [] }).length = 3
    ∧ (stateAfterReveals { command := "docker ps", output := ["a", "b"], description := "" }
        (startPlayback { command := "docker ps", output := ["a", "b"], description := "" }
          { isExecuting := false, commandHistory := [] }) 1).commandHistory
        = [{ command := "docker ps", output := ["a"] }]
    ∧ revealedCount { command := "docker ps", output := ["a", "b"], description := "" }
        { isExecuting := false, commandHistory := [] } 0
        ≤ revealedCount { command := "docker ps", output := ["a", "b"], description := "" }
            { isExecuting := false, commandHistory := [] } 1
    ∧ (executeCommand { command := "docker ps", output := ["a", "b"], description := "" }
        { isExecuting := false, commandHistory := [] }).commandHistory
        = [{ command := "docker ps", output := ["a", "b"] }] := by
  obtain ⟨h1, h2, h3, h4⟩ := playback_appends_exact
    { command := "docker ps", output := ["a", "b"], description := "" }
    { isExecuting := false, commandHistory := [] } rfl
  exact ⟨h1, by simpa using h2 1 (by decide), h3 0, by simpa using h4⟩

/-- C7: playing back the record with output `["a", "b", "c"]` from the idle
empty state yields the timed trace: at t = 0 zero lines are revealed; at
t = 500 + 300 = 800 exactly `["a"]`; at 1100 `["a", "b"]`; at 1400
`["a", "b", "c"]`; and immediately after the third reveal the busy flag
resets to `false` (each timer firing is one step of the step relation). -/
theorem timed_trace_abc :
    playbackTimedTrace { command := "docker ps", output := ["a", "b", "c"], description := "" }
        { isExecuting := false, commandHistory := [] }
      = [(0, { isExecuting := true,
               commandHistory := [{ command := "docker ps", output := [] }] }),
         (800, { isExecuting := true,
                 commandHistory := [{ command := "docker ps", output := ["a"] }] }),
         (1100, { isExecuting := true,
                  commandHistory := [{ command := "docker ps", output := ["a", "b"] }] }),
         (1400, { isExecuting := true,
                  commandHistory := [{ command := "docker ps", output := ["a", "b", "c"] }] }),
         (1400, { isExecuting := false,
                  commandHistory := [{ command := "docker ps", output := ["a", "b", "c"] }] })] := by
  rfl

end Engine

theorem containsSub_nil_needle (hay : List Char) : containsSub hay [] = true := by
  cases hay <;> rfl

/-- Generic: filtering by a conjunction of predicates is filtering twice. -/
theorem filter_and_eq {α : Type} (p q : α → Bool) (l : List α) :
    l.filter (fun a => p a && q a) = (l.filter p).filter q := by
  induction l with
  | nil => rfl
  | cons a t ih => cases hp : p a <;> cases hq : q a <;> simp [List.filter_cons, hp, hq, ih]

/-- Generic: `List.filter` is idempotent. -/
theorem filter_idem_eq {α : Type} (p : α → Bool) (l : List α) :
    (l.filter p).filter p = l.filter p := by
  induction l with
  | nil => rfl
  | cons a t ih => cases hp : p a <;> simp [List.filter_cons, hp, ih]

namespace NetworksB

theorem netB_stateAfterReveals_fields (cmd : NetworkCommand) (s : State) :
    ∀ k : Nat,
      (stateAfterReveals cmd s k).selectedCategory = s.selectedCategory
      ∧ (stateAfterReveals cmd s k).isExecuting = s.isExecuting
      ∧ (stateAfterReveals cmd s k).commandHistory
          = (Engine.stateAfterReveals (toRecord cmd) (proj s) k).commandHistory := by
  intro k
  induction k with
  | zero => exact ⟨rfl, rfl, rfl⟩
  | succ k ih =>
      refine ⟨ih.1, ih.2.1, ?_⟩
      simp only [stateAfterReveals, Engine.stateAfterReveals, Engine.revealStep, ih.2.2, toRecord]

theorem netB_proj_executeCommand (cmd : NetworkCommand) (s : State) :
    proj (executeCommand cmd s) = Engine.executeCommand (toRecord cmd) (proj s)
    ∧ (executeCommand cmd s).selectedCategory = s.selectedCategory := by
  cases hb : s.isExecuting with
  | true =>
      simp [executeCommand, Engine.executeCommand, proj, hb]
  | false =>
      have hfields := netB_stateAfterReveals_fields cmd
        { s with isExecuting := true,
                 commandHistory := s.commandHistory ++ [{ command := cmd.command, output := [] }] }
        cmd.output.length
      simp only [executeCommand, Engine.executeCommand, proj, hb, Bool.false_eq_true, if_false,
        Engine.startPlayback, toRecord] at hfields ⊢
      exact ⟨by rw [hfields.2.2], hfields.1⟩

end NetworksB

namespace Volumes

theorem vol_stateAfterReveals_fields (cmd : VolumeCommand) (s : State) :
    ∀ k : Nat,
      (stateAfterReveals cmd s k).selectedCategory = s.selectedCategory
      ∧ (stateAfterReveals cmd s k).isExecuting = s.isExecuting
      ∧ (stateAfterReveals cmd s k).commandHistory
          = (Engine.stateAfterReveals (toRecord cmd) (proj s) k).commandHistory := by
  intro k
  induction k with
  | zero => exact ⟨rfl, rfl, rfl⟩
  | succ k ih =>
      refine ⟨ih.1, ih.2.1, ?_⟩
      simp only [stateAfterReveals, Engine.stateAfterReveals, Engine.revealStep, ih.2.2, toRecord]

theorem vol_proj_executeCommand (cmd : VolumeCommand) (s : State) :
    proj (executeCommand cmd s) = Engine.executeCommand (toRecord cmd) (proj s)
    ∧ (executeCommand cmd s).selectedCategory = s.selectedCategory := by
  cases hb : s.isExecuting with
  | true =>
      simp [executeCommand, Engine.executeCommand, proj, hb]
  | false =>
      have hfields := vol_stateAfterReveals_fields cmd
        { s with isExecuting := true,
                 commandHistory := s.commandHistory ++ [{ command := cmd.command, output := [] }] }
        cmd.output.length
      simp only [executeCommand, Engine.executeCommand, proj, hb, Bool.false_eq_true, if_false,
        Engine.startPlayback, toRecord] at hfields ⊢
      exact ⟨by rw [hfields.2.2], hfields.1⟩

end Volumes

namespace Terminal

theorem term_stateAfterReveals_fields (cmd : CommandRecord) (s : State) :
    ∀ k : Nat,
      (stateAfterReveals cmd s k).selectedCommand = s.selectedCommand
      ∧ (stateAfterReveals cmd s k).outputLines = s.outputLines
      ∧ (stateAfterReveals cmd s k).isExecuting = s.isExecuting
      ∧ (stateAfterReveals cmd s k).commandHistory
          = (Engine.stateAfterReveals cmd (proj s) k).commandHistory := by
  intro k
  induction k with
  | zero => exact ⟨rfl, rfl, rfl, rfl⟩
  | succ k ih =>
      refine ⟨ih.1, ih.2.1, ih.2.2.1, ?_⟩
      simp only [stateAfterReveals, Engine.stateAfterReveals, Engine.revealStep, ih.2.2.2]

theorem term_proj_executeCommand (commands : List CommandRecord) (idx : Nat) (cmd : CommandRecord)
    (s : State) (hidx : commands.get? idx = some cmd) :
    (executeCommand commands idx s).map proj = some (Engine.executeCommand cmd (proj s)) := by
  cases hb : s.isExecuting with
  | true =>
      simp only [executeCommand, Engine.executeCommand, proj, hb, if_true, Option.map_some']
  | false =>
      have hfields := term_stateAfterReveals_fields cmd
        { s with isExecuting := true, selectedCommand := idx,
                 commandHistory := s.commandHistory ++ [{ command := cmd.command, output := [] }] }
        cmd.output.length
      simp only [executeCommand, Engine.executeCommand, proj, hb, Bool.false_eq_true, if_false,
        hidx, Option.map_some', Engine.startPlayback] at hfields ⊢
      rw [hfields.2.2.2]

end Terminal

namespace NetworksA

/-- C2 (counterexample): in the first `DockerNetworks` variant the claim
fails.  With the `netLs` playback in flight (busy), a request for `netCreate`
is not ignored — it changes the state — and scheduling the two pending timer
continuations yields a visible output that mixes a line of `netLs` with the
line of `netCreate`. -/
theorem busy_request_not_ignored_cex :
    cexMidPlayback.runningCommand = some "docker network ls"
    ∧ executeStart netCreate cexMidPlayback ≠ cexMidPlayback
    ∧ cexInterleaved.selectedOutput
        = ["2f259bab93aa   bridge    bridge    local",
           "1a5d4c8e9b32f7a8c6d2e4f9b7a3c5d8e9f2a1b4c7d8e5f2a9b6c3d7e8f1a2b5c4d6e9f3a7"] := by
  refine ⟨rfl, ?_, rfl⟩
  decide

end NetworksA

/-- C2 (amended): in the guarded playback sites — the shared engine form, the
`DockerVolumes` component, the second `DockerNetworks` variant and the
general `Terminal` — a playback request issued while the engine is busy is
silently ignored: the state is returned unchanged, so no second history entry
is created and no output is interleaved.  (The first `DockerNetworks` variant
has no guard; see the counterexample.) -/
theorem busy_guard_ignores_request :
    (∀ (cmd : CommandRecord) (s : Engine.State), s.isExecuting = true →
        Engine.executeCommand cmd s = s)
    ∧ (∀ (cmd : VolumeCommand) (s : Volumes.State), s.isExecuting = true →
        Volumes.executeCommand cmd s = s)
    ∧ (∀ (cmd : NetworkCommand) (s : NetworksB.State), s.isExecuting = true →
        NetworksB.executeCommand cmd s = s)
    ∧ (∀ (commands : List CommandRecord) (idx : Nat) (s : Terminal.State), s.isExecuting = true →
        Terminal.executeCommand commands idx s = some s) := by
  refine ⟨fun cmd s h => ?_, fun cmd s h => ?_, fun cmd s h => ?_, fun commands idx s h => ?_⟩
  · simp [Engine.executeCommand, h]
  · simp [Volumes.executeCommand, h]
  · simp [NetworksB.executeCommand, h]
  · simp [Terminal.executeCommand, h]

/-- Witness for `busy_guard_ignores_request` at concrete busy states. -/
theorem busy_guard_ignores_request_witness :
    Engine.executeCommand { command := "docker ps", output := ["x"], description := "" }
        { isExecuting := true, commandHistory := [] }
      = { isExecuting := true, commandHistory := [] }
    ∧ Volumes.executeCommand
        { command := "docker volume ls", description := "", output := ["v"], category := "list" }
        { selectedCategory := "all", isExecuting := true, commandHistory := [] }
      = { selectedCategory := "all", isExecuting := true, commandHistory := [] }
    ∧ NetworksB.executeCommand
        { command := "docker network ls", description := "", output := ["n"], category := "list" }
        { selectedCategory := "all", isExecuting := true, commandHistory := [] }
      = { selectedCategory := "all", isExecuting := true, commandHistory := [] }
    ∧ Terminal.executeCommand [] 0
        { selectedCommand := 0, isExecuting := true, outputLines := [], commandHistory := [] }
      = some { selectedCommand := 0, isExecuting := true, outputLines := [], commandHistory := [] } :=
  ⟨busy_guard_ignores_request.1 _ _ rfl, busy_guard_ignores_request.2.1 _ _ rfl,
   busy_guard_ignores_request.2.2.1 _ _ rfl, busy_guard_ignores_request.2.2.2 _ _ _ rfl⟩

namespace Engine

/-- C3 (counterexample): `clearTerminal` invoked mid-playback (busy flag set)
empties the history but does not reset the busy flag to `false` — no variant
of `clearTerminal` writes `isExecuting`. -/
theorem clear_keeps_busy_cex :
    (clearTerminal ⟨true, [{ command := "docker ps", output := ["a"] }]⟩).commandHistory = []
    ∧ (clearTerminal ⟨true, [{ command := "docker ps", output := ["a"] }]⟩).isExecuting ≠ false := by
  exact ⟨rfl, by decide⟩

/-- C3 (amended): `clearTerminal` resets the visible history to the empty
sequence and leaves the busy flag unchanged (in particular it is already
`false` when clear happens while idle); after a clear in the idle state, a
subsequent playback request starts a fresh playback whose revealed output
after `k` steps is the first `k` lines of the new record, in order, and which
completes with the full output as the only history entry. -/
theorem clear_resets_history_only (s : State) (cmd : CommandRecord) :
    (clearTerminal s).commandHistory = []
    ∧ (clearTerminal s).isExecuting = s.isExecuting
    ∧ (s.isExecuting = false →
        (∀ k, (stateAfterReveals cmd (startPlayback cmd (clearTerminal s)) k).commandHistory
            = [{ command := cmd.command, output := cmd.output.take k }])
        ∧ (executeCommand cmd (clearTerminal s)).commandHistory
            = [{ command := cmd.command, output := cmd.output }]) := by
  refine ⟨rfl, rfl, fun hidle => ⟨fun k => ?_, ?_⟩⟩
  · rw [stateAfterReveals_history]
    simp [clearTerminal]
  · simp [executeCommand, clearTerminal, hidle, stateAfterReveals_history]

/-- Witness for `clear_resets_history_only`: clear a busy one-entry history,
then play back `⟨"docker images", ["img1"]⟩` from idle. -/
theorem clear_resets_history_only_witness :
    (clearTerminal ⟨false, [{ command := "docker ps", output := ["a"] }]⟩).commandHistory = []
    ∧ (clearTerminal ⟨false, [{ command := "docker ps", output := ["a"] }]⟩).isExecuting = false
    ∧ (stateAfterReveals { command := "docker images", output := ["img1"], description := "" }
        (startPlayback { command := "docker images", output := ["img1"], description := "" }
          (clearTerminal ⟨false, [{ command := "docker ps", output := ["a"] }]⟩)) 1).commandHistory
        = [{ command := "docker images", output := ["img1"] }]
    ∧ (executeCommand { command := "docker images", output := ["img1"], description := "" }
        (clearTerminal ⟨false, [{ command := "docker ps", output := ["a"] }]⟩)).commandHistory
        = [{ command := "docker images", output := ["img1"] }] := by
  obtain ⟨h1, h2, h3⟩ := clear_resets_history_only
    { isExecuting := false, commandHistory := [{ command := "docker ps", output := ["a"] }] }
    { command := "docker images", output := ["img1"], description := "" }
  exact ⟨h1, h2, by simpa using (h3 rfl).1 1, (h3 rfl).2⟩

/-- C5 (counterexample): a pending per-line append step is not well-defined
after a clear emptied the history mid-playback.  Playback of
`⟨"docker login", ["Login Succeeded"]⟩` is accepted, `clearTerminal` then
empties the history, and the already-scheduled append updater hits
`updated[updated.length - 1]` on an empty array: a `TypeError` (`none`). -/
theorem pending_append_after_clear_cex :
    setLastOutputUpd ["Login Succeeded"]
      (clearTerminal (startPlayback
        { command := "docker login", output := ["Login Succeeded"], description := "" }
        { isExecuting := false, commandHistory := [] })).commandHistory = none := rfl

/-- C5 (amended): during an uninterrupted playback every pending append step
is well-defined: after `k` reveal steps the history is never empty, and the
`(k+1)`-st append updater succeeds (returns `some`) and produces exactly the
next playback state.  (If a clear empties the history first, the pending step
throws; see the counterexample.) -/
theorem uninterrupted_append_welldefined :
    (∀ (cmd : CommandRecord) (s : State) (k : Nat),
        (stateAfterReveals cmd (startPlayback cmd s) k).commandHistory ≠ [])
    ∧ (∀ (cmd : CommandRecord) (s : State) (k : Nat),
        setLastOutputUpd (cmd.output.take (k + 1))
            ((stateAfterReveals cmd (startPlayback cmd s) k).commandHistory)
          = some ((stateAfterReveals cmd (startPlayback cmd s) (k + 1)).commandHistory)) := by
  have hne : ∀ (cmd : CommandRecord) (s : State) (k : Nat),
      (stateAfterReveals cmd (startPlayback cmd s) k).commandHistory ≠ [] := by
    intro cmd s k
    rw [stateAfterReveals_history]
    simp
  refine ⟨hne, fun cmd s k => ?_⟩
  rw [setLastOutputUpd_eq_some _ _ (hne cmd s k)]
  rfl

end Engine

/-- C6 (counterexample): `DockerLogs.executeCommand` is not behaviorally
equivalent to the incremental playback engine.  Immediately after invocation
its full output (here 2 entries) is displayed, while the engine run on a
2-line record has revealed zero lines at the corresponding instant; and an
immediately following second request is not ignored (no busy guard), whereas
the engine would ignore it. -/
theorem logs_execute_not_playback_cex :
    (Logs.displayedLogs (Logs.executeCommand Logs.cexLogCmd
        { selectedCommand := Logs.cexLogCmd, isFollowing := false,
          selectedCategory := "all" })).length = 2
    ∧ Engine.revealedCount
        { command := "docker logs nginx-container", output := ["l1", "l2"], description := "" }
        { isExecuting := false, commandHistory := [] } 0 = 0
    ∧ Logs.executeCommand Logs.cexLogCmd2 (Logs.executeCommand Logs.cexLogCmd
        { selectedCommand := Logs.cexLogCmd, isFollowing := false, selectedCategory := "all" })
        ≠ Logs.executeCommand Logs.cexLogCmd
            { selectedCommand := Logs.cexLogCmd, isFollowing := false, selectedCategory := "all" } := by
  refine ⟨rfl, rfl, ?_⟩
  decide

/-- C6 (amended): three of the four playback sites — `DockerVolumes`, the
second `DockerNetworks` variant and the general `Terminal` — are behaviorally
equivalent instances of the one playback engine: projecting their states onto
the engine sub-state commutes with their `executeCommand`s.  The log viewer's
`executeCommand` is not an instance: it only selects the record, displaying
the record's full output at once. -/
theorem playback_sites_equivalence :
    (∀ (cmd : VolumeCommand) (s : Volumes.State),
        Volumes.proj (Volumes.executeCommand cmd s)
          = Engine.executeCommand (Volumes.toRecord cmd) (Volumes.proj s))
    ∧ (∀ (cmd : NetworkCommand) (s : NetworksB.State),
        NetworksB.proj (NetworksB.executeCommand cmd s)
          = Engine.executeCommand (NetworksB.toRecord cmd) (NetworksB.proj s))
    ∧ (∀ (commands : List CommandRecord) (idx : Nat) (cmd : CommandRecord) (s : Terminal.State),
        commands.get? idx = some cmd →
          (Terminal.executeCommand commands idx s).map Terminal.proj
            = some (Engine.executeCommand cmd (Terminal.proj s)))
    ∧ (∀ (cmd : Logs.LogCommand) (s : Logs.State),
        Logs.displayedLogs (Logs.executeCommand cmd s) = cmd.output) :=
  ⟨fun cmd s => (Volumes.vol_proj_executeCommand cmd s).1,
   fun cmd s => (NetworksB.netB_proj_executeCommand cmd s).1,
   fun commands idx cmd s hidx => Terminal.term_proj_executeCommand commands idx cmd s hidx,
   fun _ _ => rfl⟩

/-- Witness for `playback_sites_equivalence` at concrete records and states. -/
theorem playback_sites_equivalence_witness :
    Volumes.proj (Volumes.executeCommand
        { command := "docker volume ls", description := "", output := ["v1"], category := "list" }
        { selectedCategory := "all", isExecuting := false, commandHistory := [] })
      = Engine.executeCommand
          (Volumes.toRecord ⟨"docker volume ls", "", ["v1"], "list"⟩)
          (Volumes.proj { selectedCategory := "all", isExecuting := false, commandHistory := [] })
    ∧ NetworksB.proj (NetworksB.executeCommand
        { command := "docker network ls", description := "", output := ["n1"], category := "list" }
        { selectedCategory := "all", isExecuting := false, commandHistory := [] })
      = Engine.executeCommand
          (NetworksB.toRecord ⟨"docker network ls", "", ["n1"], "list"⟩)
          (NetworksB.proj { selectedCategory := "all", isExecuting := false, commandHistory := [] })
    ∧ (Terminal.executeCommand [{ command := "docker ps", output := ["a"], description := "" }] 0
        { selectedCommand := 0, isExecuting := false, outputLines := [], commandHistory := [] }).map
          Terminal.proj
      = some (Engine.executeCommand { command := "docker ps", output := ["a"], description := "" }
          (Terminal.proj ⟨0, false, [], []⟩))
    ∧ Logs.displayedLogs (Logs.executeCommand Logs.cexLogCmd2
        { selectedCommand := Logs.cexLogCmd, isFollowing := false, selectedCategory := "all" })
      = Logs.cexLogCmd2.output :=
  ⟨playback_sites_equivalence.1 _ _, playback_sites_equivalence.2.1 _ _,
   playback_sites_equivalence.2.2.1 _ 0 _ _ rfl, playback_sites_equivalence.2.2.2 _ _⟩

namespace Gallery

theorem matchesSearch_empty (img : DockerImage) : matchesSearch "" img = true := by
  have h1 : toLowerCase "" = "" := rfl
  simp only [matchesSearch, h1, includesStr]
  cases hd : (toLowerCase img.name).data with
  | nil => rfl
  | cons c cs => rfl

theorem matchesCategory_all (img : DockerImage) : matchesCategory "All" img = true := by
  simp [matchesCategory]

end Gallery

/-- C4: the filter over a static catalog is a pure, order-preserving
projection: category "All" (gallery) or "all" (log viewer) with empty search
returns the catalog unchanged; a category `cat` with empty search returns
exactly the records whose category equals `cat`, in catalog order; a search
term narrows further by case-insensitive substring match on name/description
(factorization conjunct); any query lowercasing to "postgres" returns only
the postgres entry of a postgres/redis catalog; and filtering is
idempotent. -/
theorem gallery_filter_props :
    (∀ l : List DockerImage, Gallery.filteredImages l "All" "" = l)
    ∧ (∀ (l : List DockerImage) (cat : String), cat ≠ "All" →
        Gallery.filteredImages l cat ""
          = l.filter (fun img => img.category == cat))
    ∧ (∀ (l : List DockerImage) (cat s : String),
        Gallery.filteredImages l cat s
          = (l.filter (Gallery.matchesCategory cat)).filter (Gallery.matchesSearch s))
    ∧ (∀ q : String, toLowerCase q = "postgres" →
        Gallery.filteredImages [Gallery.postgresImage, Gallery.redisImage] "All" q
          = [Gallery.postgresImage])
    ∧ (∀ (l : List DockerImage) (cat s : String),
        Gallery.filteredImages (Gallery.filteredImages l cat s) cat s
          = Gallery.filteredImages l cat s)
    ∧ (∀ l : List Logs.LogCommand, Logs.filteredCommands l "all" = l)
    ∧ (∀ (l : List Logs.LogCommand) (cat : String), cat ≠ "all" →
        Logs.filteredCommands l cat
          = l.filter (fun cmd => cmd.category == cat)) := by
  refine ⟨?_, ?_, ?_, ?_, ?_, ?_, ?_⟩
  · intro l
    simp [Gallery.filteredImages, Gallery.matchesCategory_all, Gallery.matchesSearch_empty]
  · intro l cat h
    have hc : (cat == "All") = false := beq_eq_false_iff_ne.mpr h
    simp [Gallery.filteredImages, Gallery.matchesCategory, Gallery.matchesSearch_empty, hc]
  · intro l cat s
    exact filter_and_eq _ _ l
  · intro q hq
    have hp : Gallery.matchesSearch q Gallery.postgresImage = true := by
      unfold Gallery.matchesSearch
      rw [hq]
      decide
    have hr : Gallery.matchesSearch q Gallery.redisImage = false := by
      unfold Gallery.matchesSearch
      rw [hq]
      decide
    simp [Gallery.filteredImages, List.filter_cons, hp, hr, Gallery.matchesCategory_all]
  · intro l cat s
    exact filter_idem_eq _ l
  · intro l
    simp [Logs.filteredCommands]
  · intro l cat h
    have hc : (cat == "all") = false := beq_eq_false_iff_ne.mpr h
    simp [Logs.filteredCommands, hc]

/-- Witness for `gallery_filter_props` on the postgres/redis catalog and the
two log records, with the query "PoStGreS". -/
theorem gallery_filter_props_witness :
    Gallery.filteredImages [Gallery.postgresImage, Gallery.redisImage] "All" ""
      = [Gallery.postgresImage, Gallery.redisImage]
    ∧ Gallery.filteredImages [Gallery.postgresImage, Gallery.redisImage] "Databases" ""
      = List.filter (fun img => img.category == "Databases")
          [Gallery.postgresImage, Gallery.redisImage]
    ∧ Gallery.filteredImages [Gallery.postgresImage, Gallery.redisImage] "Databases" "redis"
      = (List.filter (Gallery.matchesCategory "Databases")
          [Gallery.postgresImage, Gallery.redisImage]).filter (Gallery.matchesSearch "redis")
    ∧ Gallery.filteredImages [Gallery.postgresImage, Gallery.redisImage] "All" "PoStGreS"
      = [Gallery.postgresImage]
    ∧ Gallery.filteredImages
        (Gallery.filteredImages [Gallery.postgresImage, Gallery.redisImage] "All" "data")
        "All" "data"
      = Gallery.filteredImages [Gallery.postgresImage, Gallery.redisImage] "All" "data"
    ∧ Logs.filteredCommands [Logs.cexLogCmd, Logs.cexLogCmd2] "all"
      = [Logs.cexLogCmd, Logs.cexLogCmd2]
    ∧ Logs.filteredCommands [Logs.cexLogCmd, Logs.cexLogCmd2] "filter"
      = List.filter (fun cmd => cmd.category == "filter")
          [Logs.cexLogCmd, Logs.cexLogCmd2] := by
  obtain ⟨h1, h2, h3, h4, h5, h6, h7⟩ := gallery_filter_props
  exact ⟨h1 _, h2 _ _ (by decide), h3 _ _ _, h4 _ (by decide), h5 _ _ _, h6 _,
    h7 _ _ (by decide)⟩

/-- C8: every clipboard-copy operation emits the clipboard write followed
immediately and unconditionally by the success toast, independently of
whether the write primitive succeeds; and no copy operation ever emits an
error toast. -/
theorem copy_always_success_toast :
    (∀ (c : String) (r₁ r₂ : Bool), copyCommand c r₁ = copyCommand c r₂)
    ∧ (∀ (c : String) (r : Bool),
        copyCommand c r
          = [.clipboardWrite c, .toast .success "Command copied to clipboard!"])
    ∧ (∀ (c m : String) (r : Bool), Effect.toast .error m ∉ copyCommand c r)
    ∧ (∀ (j : String) (r₁ r₂ : Bool), copyJson j r₁ = copyJson j r₂)
    ∧ (∀ (j : String) (r : Bool),
        copyJson j r
          = [.clipboardWrite j, .toast .success "JSON data copied to clipboard!"])
    ∧ (∀ (j m : String) (r : Bool), Effect.toast .error m ∉ copyJson j r)
    ∧ (∀ (t m : String) (r : Bool), Effect.toast .error m ∉ copyToClipboard t r) := by
  refine ⟨fun c r₁ r₂ => rfl, fun c r => rfl, ?_, fun j r₁ r₂ => rfl, fun j r => rfl, ?_, ?_⟩
  · intro c m r
    simp [copyCommand]
  · intro j m r
    simp [copyJson]
  · intro t m r
    simp [copyToClipboard]

theorem applyOp_commands (w w2 : World) (op : Op) (h : applyOp w op = some w2) :
    w2.commands = w.commands := by
  cases op with
  | exec idx =>
      simp only [applyOp, Option.map_eq_some'] at h
      obtain ⟨cmd, _, hw⟩ := h
      rw [← hw]
  | clear =>
      simp only [applyOp, Option.some.injEq] at h
      rw [← h]
  | copy idx =>
      simp only [applyOp, Option.map_eq_some'] at h
      obtain ⟨cmd, _, hw⟩ := h
      rw [← hw]

/-- C9: the static catalog is never mutated: after any sequence of user
operations (playback, clearing, copying) that completes, every catalog record
— all fields included — equals its initial value; and a completed playback of
`commands[idx]` copies that record's output lines into the new history entry
while leaving the catalog untouched. -/
theorem catalog_never_mutated :
    (∀ (w w2 : World) (ops : List Op), applyOps w ops = some w2 → w2.commands = w.commands)
    ∧ (∀ (w : World) (idx : Nat) (cmd : CommandRecord),
        w.commands.get? idx = some cmd → w.state.isExecuting = false →
          applyOp w (.exec idx)
            = some { commands := w.commands,
                     state := { isExecuting := false,
                                commandHistory := w.state.commandHistory
                                  ++ [{ command := cmd.command, output := cmd.output }] } }) := by
  constructor
  · intro w w2 ops
    induction ops generalizing w with
    | nil =>
        intro h
        simp only [applyOps, Option.some.injEq] at h
        rw [← h]
    | cons op ops ih =>
        intro h
        simp only [applyOps] at h
        cases happ : applyOp w op with
        | none =>
            rw [happ] at h
            simp at h
        | some w3 =>
            rw [happ] at h
            simp at h
            rw [ih w3 h, applyOp_commands w w3 op happ]
  · intro w idx cmd hget hidle
    have hexec : Engine.executeCommand cmd w.state
        = { isExecuting := false,
            commandHistory := w.state.commandHistory
              ++ [{ command := cmd.command, output := cmd.output }] } := by
      simp only [Engine.executeCommand, hidle, Bool.false_eq_true, if_false,
        Engine.stateAfterReveals_history, List.take_length]
    simp only [applyOp, hget, Option.map_some', hexec]

/-- Witness for `catalog_never_mutated`: a one-record catalog, the sequence
execute-clear-copy, and a direct playback. -/
theorem catalog_never_mutated_witness :
    (applyOps { commands := [{ command := "docker ps", output := ["a"], description := "" }],
                state := { isExecuting := false, commandHistory := [] } }
        [Op.exec 0, Op.clear, Op.copy 0]
      = some { commands := [{ command := "docker ps", output := ["a"], description := "" }],
               state := { isExecuting := false, commandHistory := [] } })
    ∧ ({ commands := [{ command := "docker ps", output := ["a"], description := "" }],
         state := { isExecuting := false, commandHistory := [] } } : World).commands
      = [{ command := "docker ps", output := ["a"], description := "" }]
    ∧ applyOp { commands := [{ command := "docker ps", output := ["a"], description := "" }],
                state := { isExecuting := false, commandHistory := [] } } (.exec 0)
      = some { commands := [{ command := "docker ps", output := ["a"], description := "" }],
               state := { isExecuting := false,
                          commandHistory := [{ command := "docker ps", output := ["a"] }] } } := by
  refine ⟨rfl, ?_, ?_⟩
  · exact (catalog_never_mutated.1
      { commands := [{ command := "docker ps", output := ["a"], description := "" }],
        state := { isExecuting := false, commandHistory := [] } }
      { commands := [{ command := "docker ps", output := ["a"], description := "" }],
        state := { isExecuting := false, commandHistory := [] } }
      [Op.exec 0, Op.clear, Op.copy 0] rfl).trans rfl
  · exact catalog_never_mutated.2
      { commands := [{ command := "docker ps", output := ["a"], description := "" }],
        state := { isExecuting := false, commandHistory := [] } } 0
      { command := "docker ps", output := ["a"], description := "" } rfl rfl

namespace Gallery

/-- C10: at the gallery's modal call site, a null `selectedImage` is passed
together with `isOpen = false`, and the modal reads record fields only inside
its `isOpen` branch; so for every gallery state the render is defined — no
field of a missing record is ever read. -/
theorem modal_never_reads_null (selectedImage : Option DockerImage) :
    (imageModalCallSite selectedImage).isSome = true := by
  cases selectedImage <;> rfl

end Gallery

end Docker
